import Mathlib

/-!
Verification development for the zysys api-test-framework repository.

The definitions below are a shallow embedding of the Python source:
  * `src/src/core.py` — `EndpointTester` (`run_test`, `run_tests`,
    `validate_response`, `process_test_with_extensions`)
  * `src/src/extensions/loader.py` — `ExtensionLoader`
    (`resolve_extension`, `process_block_with_extensions`)
Pure Python functions become Lean functions; the asyncio retry loop becomes
an explicit recursion returning the produced result together with the number
of request attempts and backoff sleeps; the asyncio semaphore used by the
concurrency coordinator is modelled as a counting-gate transition system.
-/

namespace ZysysApiTest

/-- Python scalar values as they occur in the validation paths of
`core.py`: integers (status codes) and strings.  Python `==` across these
types is `False`, which `pyEq` mirrors. -/
inductive PyVal where
  | vInt : Int → PyVal
  | vStr : String → PyVal
  deriving DecidableEq, Repr

/-- Python `==` on the modelled scalar values: equal ints, equal strings,
anything across types compares unequal. -/
def pyEq : PyVal → PyVal → Bool
  | .vInt a, .vInt b => a == b
  | .vStr a, .vStr b => a == b
  | _, _ => false

theorem pyEq_eq_true_iff (a b : PyVal) : pyEq a b = true ↔ a = b := by
  cases a <;> cases b <;> simp [pyEq]

/-- Python `s.startswith(p)`: the characters of `p` are a prefix of the
characters of `s`. -/
def strStartsWith (s p : String) : Bool := decide (p.data <+: s.data)

/-- Python `p in s` for strings: the characters of `p` occur contiguously
inside the characters of `s` (the empty pattern always matches). -/
def strContains (s p : String) : Bool := decide (p.data <:+: s.data)

/-- Python `str.lower()` (ASCII case folding; header names are ASCII). -/
def pyLower (s : String) : String := ⟨s.data.map Char.toLower⟩

/-- Whitespace characters removed by Python `str.strip()` (ASCII subset;
the claims only exercise spaces). -/
def pyIsSpace (c : Char) : Bool :=
  c == ' ' || c == '\t' || c == '\n' || c == '\r' || c == '\x0b' || c == '\x0c'

/-- Python `str.strip()`: drop leading and trailing whitespace. -/
def pyStrip (s : String) : String :=
  ⟨((s.data.dropWhile pyIsSpace).reverse.dropWhile pyIsSpace).reverse⟩

/-- The global configuration of `config.yaml` as consumed by `core.py`.
Each field's default is the default passed to `dict.get` at the
corresponding use site (`retries` defaults to 1, `trim` to `True`,
`stop-on-fail` to `False`, `concurrent` to 10, `timeout` to 30). -/
structure GlobalConfig where
  baseUrl : String := ""
  retries : Int := 1
  trim : Bool := true
  stopOnFail : Bool := false
  concurrent : Nat := 10
  timeoutSeconds : Nat := 30
  extensionPrecedence : String := "non-core"
  deriving Repr

/-- Shape of `expected['status']` as distinguished by `validate_response`
(line 344 of core.py): either the `{type: multiple, values: [...]}` dict
produced by the `multiple` extension, or a scalar compared with `==`. -/
inductive StatusExp where
  | scalar : PyVal → StatusExp
  | multiple : List PyVal → StatusExp
  deriving Repr

/-- Shape of `expected['content-type']`: scalar string or the multi-value
form; values are the strings handed to `str.startswith`. -/
inductive CtExp where
  | scalar : String → CtExp
  | multiple : List String → CtExp
  deriving Repr

/-- Value of `expected['response']['type']` (defaulting to `exact`); an
unrecognized tag matches none of the `elif` branches and imposes no
constraint. -/
inductive RespType where
  | exact
  | regex
  | containsT
  | emptyBody
  | other : String → RespType
  deriving Repr

/-- The `expected['response']` sub-document: a `type` tag (default `exact`)
and a `value` string. -/
structure RespExp where
  rtype : RespType := .exact
  value : String := ""
  deriving Repr

/-- An expectation set (`expected` dict); absent fields impose no
constraint, matching the `if 'status' in expected` style guards. -/
structure ExpectedSet where
  status : Option StatusExp := none
  contentType : Option CtExp := none
  cors : Option String := none
  response : Option RespExp := none
  deriving Repr

/-- The `actual` dict built in `run_test`: status code, body text, headers. -/
structure ActualResp where
  status : Int := 0
  body : String := ""
  headers : List (String × String) := []
  deriving Repr

/-- Case-insensitive content-type lookup (core.py lines 357-361): scan the
headers, take the first whose lowercased name is `content-type`, defaulting
to the empty string. -/
def findContentType : List (String × String) → String
  | [] => ""
  | (k, v) :: rest => if pyLower k == "content-type" then v else findContentType rest

/-- Case-sensitive header lookup with `''` default, as in
`actual['headers'].get('access-control-allow-origin', '')`. -/
def lookupHeader (name : String) : List (String × String) → String
  | [] => ""
  | (k, v) :: rest => if k == name then v else lookupHeader name rest

/-- Status-code rule of `validate_response` (lines 341-351): multi-value
form requires membership (Python `in`, elementwise `==`); otherwise
equality of the actual status with the scalar. -/
def statusRule (expSt : StatusExp) (actualStatus : Int) : Bool :=
  match expSt with
  | .multiple values => values.any (fun v => pyEq (.vInt actualStatus) v)
  | .scalar v => pyEq (.vInt actualStatus) v

/-- Content-type rule (lines 354-375): multi-value form requires the actual
value to start with any listed value; scalar requires the actual value to
start with it. -/
def contentTypeRule (expCt : CtExp) (actualCt : String) : Bool :=
  match expCt with
  | .multiple values => values.any (fun ct => strStartsWith actualCt ct)
  | .scalar s => strStartsWith actualCt s

/-- CORS rule (lines 378-385): expected `*` requires the header to equal
`*`; any other expected value must occur as a substring of the header. -/
def corsRule (expCors : String) (headers : List (String × String)) : Bool :=
  let corsHeader := lookupHeader "access-control-allow-origin" headers
  if expCors == "*" then corsHeader == "*"
  else strContains corsHeader expCors

/-- Response-body rule (lines 388-411): optional trim, then dispatch on the
`type` tag; an unrecognized tag imposes no constraint. -/
def responseRule (trim : Bool) (reSearch : String → String → Bool)
    (expResp : RespExp) (rawBody : String) : Bool :=
  let body := if trim then pyStrip rawBody else rawBody
  match expResp.rtype with
  | .exact => body == expResp.value
  | .regex => reSearch expResp.value body
  | .containsT => strContains body expResp.value
  | .emptyBody => body == ""
  | .other _ => true

/-- Embedding of `EndpointTester.validate_response` (core.py lines
326-413).  `reSearch pat body` stands for Python
`re.search(pat, body, re.MULTILINE)` being truthy; each rule applies only
when its field is present, and the conjunction short-circuits in source
order (status, content-type, cors, response body). -/
def validate_response (cfg : GlobalConfig) (reSearch : String → String → Bool)
    (expected : ExpectedSet) (actual : ActualResp) : Bool :=
  (match expected.status with
   | none => true
   | some st => statusRule st actual.status) &&
  (match expected.contentType with
   | none => true
   | some ct => contentTypeRule ct (findContentType actual.headers)) &&
  (match expected.cors with
   | none => true
   | some c => corsRule c actual.headers) &&
  (match expected.response with
   | none => true
   | some r => responseRule cfg.trim reSearch r actual.body)

/-! Request executor: `EndpointTester.run_test` (core.py lines 252-324). -/

/-- A test-case document after extension processing, with the fields
`run_test` reads (`url` wins over `relative-url`; `type` defaults to GET;
`name` defaults to `_source_file`, then to the url). -/
structure TestSpec where
  url : Option String := none
  relativeUrl : String := ""
  methodType : Option String := none
  name : Option String := none
  sourceFile : Option String := none
  expected : ExpectedSet := {}
  deriving Repr

/-- Outcome of one `session.request` attempt: a captured response, an
`asyncio.TimeoutError`, or any other exception (with its message). -/
inductive AttemptOutcome where
  | response : Int → String → List (String × String) → AttemptOutcome
  | timeout : AttemptOutcome
  | otherExc : String → AttemptOutcome
  deriving Repr

/-- Exceptions reaching the `except Exception` handler of `run_test`.
`str(asyncio.TimeoutError())` is the empty string. -/
inductive PyExc where
  | timeoutErr : PyExc
  | otherErr : String → PyExc
  deriving DecidableEq, Repr

/-- The message `str(e)` stored into `TestResult.error`. -/
def PyExc.toMessage : PyExc → String
  | .timeoutErr => ""
  | .otherErr m => m

/-- Embedding of the `TestResult` dataclass (duration, a wall-clock
measurement, is not modelled).  `actual = none` stands for the empty dict
`{}` produced on the error path. -/
structure TestResult where
  name : String
  url : String
  passed : Bool
  expected : ExpectedSet := {}
  actual : Option ActualResp := none
  error : Option String := none
  deriving Repr

/-- How control leaves the `for attempt in range(retries)` loop: an
explicit `return` of a result, a raised exception, or falling through the
loop without returning (only possible when the range is empty). -/
inductive LoopOut where
  | returned : TestResult → LoopOut
  | raised : PyExc → LoopOut
  | fellThrough : LoopOut
  deriving Repr

/-- One iteration structure of the retry loop (core.py lines 284-311),
starting at attempt index `i`.  `range(retries)` iterates indices
`0 ≤ i < retries.toNat`.  Besides the loop outcome, the number of request
attempts performed and the number of `asyncio.sleep(1)` backoff pauses
taken from index `i` onward are returned.  A timeout at
`attempt == retries - 1` is re-raised; an earlier timeout sleeps 1 second
and retries; a response is validated and returned; any other exception
propagates immediately. -/
def attemptLoop (cfg : GlobalConfig) (reSearch : String → String → Bool)
    (expected : ExpectedSet) (testName url : String)
    (transport : Nat → AttemptOutcome) (i : Nat) : LoopOut × Nat × Nat :=
  if _h : i < cfg.retries.toNat then
    match transport i with
    | .response st body hdrs =>
      let actual : ActualResp := { status := st, body := body, headers := hdrs }
      (.returned { name := testName, url := url,
                   passed := validate_response cfg reSearch expected actual,
                   expected := expected, actual := some actual }, 1, 0)
    | .otherExc msg => (.raised (.otherErr msg), 1, 0)
    | .timeout =>
      if i == cfg.retries.toNat - 1 then
        (.raised .timeoutErr, 1, 0)
      else
        let r := attemptLoop cfg reSearch expected testName url transport (i + 1)
        (r.1, r.2.1 + 1, r.2.2 + 1)
  else
    (.fellThrough, 0, 0)
termination_by cfg.retries.toNat - i

/-- URL construction (core.py lines 269-272): an absolute `url` wins,
otherwise `relative-url` is joined against the global base. -/
def resolvedUrl (cfg : GlobalConfig) (ujoin : String → String → String)
    (t : TestSpec) : String :=
  match t.url with
  | some u => u
  | none => ujoin cfg.baseUrl t.relativeUrl

/-- Test-name defaulting (core.py line 275): `name`, else `_source_file`,
else the url. -/
def resolvedName (t : TestSpec) (url : String) : String :=
  t.name.getD (t.sourceFile.getD url)

/-- Embedding of `EndpointTester.run_test` (core.py lines 252-324).
`ujoin` stands for `urllib.parse.urljoin`; `transport i` is the outcome of
the `i`-th request attempt (the HTTP method — `type` uppercased, default
GET — and the optional JSON body are fixed across attempts and absorbed
into `transport`).  Returns the produced `TestResult` (`none` when the
loop body never runs and the function returns Python `None`), together
with the attempt count and the backoff-sleep count. -/
def run_test (cfg : GlobalConfig) (reSearch : String → String → Bool)
    (ujoin : String → String → String) (t : TestSpec)
    (transport : Nat → AttemptOutcome) : Option TestResult × Nat × Nat :=
  let r := attemptLoop cfg reSearch t.expected
    (resolvedName t (resolvedUrl cfg ujoin t)) (resolvedUrl cfg ujoin t) transport 0
  match r.1 with
  | .returned res => (some res, r.2)
  | .raised e =>
      (some { name := resolvedName t (resolvedUrl cfg ujoin t),
              url := resolvedUrl cfg ujoin t, passed := false,
              expected := t.expected, actual := none,
              error := some e.toMessage }, r.2)
  | .fellThrough => (none, r.2)

/-! Concurrency coordinator: `EndpointTester.run_tests`
(core.py lines 171-219). -/

/-- One element of the list returned by
`asyncio.gather(*tasks, return_exceptions=True)`: a `TestResult`, or an
exception object standing in for a task that raised. -/
inductive GatherItem where
  | ok : TestResult → GatherItem
  | exn : String → GatherItem
  deriving Repr

/-- The result-processing loop of `run_tests` (lines 200-216), threading
the `passed`/`failed` counters.  An exception item increments `failed` and
never triggers the stop check; a failing `TestResult` increments `failed`
and, when `stop-on-fail` is set, breaks out of the loop. -/
def processResults (stop : Bool) : List GatherItem → Nat → Nat → Nat × Nat
  | [], p, f => (p, f)
  | .exn _ :: rest, p, f => processResults stop rest p (f + 1)
  | .ok r :: rest, p, f =>
    if r.passed then processResults stop rest (p + 1) f
    else if stop then (p, f + 1)
    else processResults stop rest p (f + 1)

/-- Number of gathered items the processing loop consumes before `break`
when `stop-on-fail` is set: everything up to and including the first
non-exception failing result. -/
def countedLen : List GatherItem → Nat
  | [] => 0
  | .exn _ :: rest => 1 + countedLen rest
  | .ok r :: rest => if r.passed then 1 + countedLen rest else 1

/-- Outcome of `run_tests`: the gathered per-case items (in submission
order), the two counters, and the boolean `failed == 0` return value. -/
structure RunSummary where
  results : List GatherItem
  passed : Nat
  failed : Nat
  allPassed : Bool
  deriving Repr

/-- Embedding of `EndpointTester.run_tests` (core.py lines 171-219).
`execOne` maps a test case to the item `asyncio.gather` delivers for its
task; every submitted case gets a task and `gather` waits for all of them,
so the gathered list always contains one item per case.  The counters are
then accumulated by the processing loop. -/
def run_tests (cfg : GlobalConfig) (tests : List TestSpec)
    (execOne : TestSpec → GatherItem) : RunSummary :=
  let results := tests.map execOne
  let pf := processResults cfg.stopOnFail results 0 0
  { results := results, passed := pf.1, failed := pf.2,
    allPassed := pf.2 == 0 }

/-! Extension system: `src/src/extensions/loader.py`. -/

mutual

/-- A configuration-document tree (maps, sequences, scalar leaves), the
shape `process_test_with_extensions` walks.  Dict entries keep their
source order. -/
inductive PyTree where
  | leaf : PyVal → PyTree
  | seq : PyTrees → PyTree
  | dict : PyEntries → PyTree

/-- Items of a sequence node. -/
inductive PyTrees where
  | nil : PyTrees
  | cons : PyTree → PyTrees → PyTrees

/-- Entries of a map node: key, value, rest. -/
inductive PyEntries where
  | nil : PyEntries
  | cons : String → PyTree → PyEntries → PyEntries

end

/-- An extension instance: its `process(block_name, block_value, context)`
method.  The context dict `{'test_config': cfg}` is represented by the
entries of the configuration being processed; a raised exception becomes
`Except.error` carrying `str(e)`. -/
structure Ext where
  procFn : String → PyVal → PyEntries → Except String PyVal

/-- Embedding of `ExtensionLoader`: the two registries (Python dicts,
modelled as association lists looked up by first match) and the precedence
string (default `non-core`). -/
structure ExtensionLoader where
  core_extensions : List (String × Ext) := []
  user_extensions : List (String × Ext) := []
  precedence : String := "non-core"

/-- Embedding of `ExtensionLoader.resolve_extension` (loader.py lines
74-91).  Python `a or b` on registry hits takes `a` when it is a present
(always truthy) extension, else `b`: with precedence `core` the built-in
map is consulted first, otherwise the user map. -/
def resolve_extension (L : ExtensionLoader) (extensionName : String) : Option Ext :=
  if L.precedence == "core" then
    match L.core_extensions.lookup extensionName with
    | some e => some e
    | none => L.user_extensions.lookup extensionName
  else
    match L.user_extensions.lookup extensionName with
    | some e => some e
    | none => L.core_extensions.lookup extensionName

/-- Detection of the transform-reference key syntax (loader.py line 119 and
core.py line 163): `'<' in name and name.endswith('>')`. -/
def hasExtSyntax (k : String) : Bool :=
  k.data.contains '<' && k.data.getLast? == some '>'

/-- Python `key.rsplit('<', 1)` on the character list: the part before the
last `<` and the part after it (`(l, [])` when no `<` occurs; callers only
use the split under `hasExtSyntax`). -/
def rsplitTag (l : List Char) : List Char × List Char :=
  let r := l.reverse
  let after := r.takeWhile (fun c => c != '<')
  match r.dropWhile (fun c => c != '<') with
  | [] => (l, [])
  | _ :: beforeRev => (beforeRev.reverse, after.reverse)

/-- Python `key.rsplit('<', 1)[0]`: everything before the last `<` (the
whole key when no `<` occurs). -/
def tagBase (k : String) : String := ⟨(rsplitTag k.data).1⟩

/-- Python `key.rsplit('<', 1)[1].rstrip('>')`: everything after the last
`<`, with all trailing `>` characters stripped. -/
def tagExtName (k : String) : String :=
  ⟨((rsplitTag k.data).2.reverse.dropWhile (fun c => c == '>')).reverse⟩

/-- Python `key.startswith('_')`, the internal-field guard of
`process_test_with_extensions` (core.py line 148). -/
def isInternalKey (k : String) : Bool := k.data.head? == some '_'

/-- Embedding of `ExtensionLoader.process_block_with_extensions`
(loader.py lines 106-136).  Returns the processed value together with the
diagnostics printed: a tagged key resolves its transform and applies it,
falling back to the pre-transform value (with a diagnostic) when the
transform raises or is not found; an untagged key passes the value through
untouched. -/
def process_block_with_extensions (L : ExtensionLoader) (blockName : String)
    (blockValue : PyVal) (ctx : PyEntries) : PyVal × List String :=
  if hasExtSyntax blockName then
    let baseName := tagBase blockName
    let extensionName := tagExtName blockName
    match resolve_extension L extensionName with
    | some e =>
      match e.procFn baseName blockValue ctx with
      | .ok v => (v, [])
      | .error msg => (blockValue, ["❌ Extension " ++ extensionName ++ " failed: " ++ msg])
    | none => (blockValue, ["⚠️  Extension " ++ extensionName ++ " not found"])
  else (blockValue, [])

mutual

/-- Entry-list walk of `EndpointTester.process_test_with_extensions`
(core.py lines 132-169) for one level whose raw dict (the `test_config`
placed into the context) is `ctx`: keys starting with `_` are copied
untouched; dict values recurse with a fresh context; list values recurse
into dict items only; scalar leaves go through
`process_block_with_extensions`, and a tagged key is replaced by its base
name in the output.  Diagnostics accumulate in processing order. -/
def processEntriesGo (L : ExtensionLoader) (ctx : PyEntries) :
    PyEntries → PyEntries × List String
  | .nil => (.nil, [])
  | .cons k v tl =>
    if isInternalKey k then
      let r := processEntriesGo L ctx tl
      (.cons k v r.1, r.2)
    else
      match v with
      | .dict es =>
        let re := processEntries L es
        let r := processEntriesGo L ctx tl
        (.cons k (.dict re.1) r.1, re.2 ++ r.2)
      | .seq xs =>
        let ri := processItems L xs
        let r := processEntriesGo L ctx tl
        (.cons k (.seq ri.1) r.1, ri.2 ++ r.2)
      | .leaf sv =>
        let pb := process_block_with_extensions L k sv ctx
        let r := processEntriesGo L ctx tl
        if hasExtSyntax k then
          (.cons (tagBase k) (.leaf pb.1) r.1, pb.2 ++ r.2)
        else
          (.cons k (.leaf pb.1) r.1, pb.2 ++ r.2)

/-- Embedding of `process_test_with_extensions` on a map node: the context
exposed to transforms is the node's own raw entry list. -/
def processEntries (L : ExtensionLoader) (es : PyEntries) :
    PyEntries × List String :=
  processEntriesGo L es es

/-- List handling of `process_test_with_extensions` (core.py line 157):
dict items recurse, every other item passes through untouched. -/
def processItems (L : ExtensionLoader) : PyTrees → PyTrees × List String
  | .nil => (.nil, [])
  | .cons t tl =>
    let r := processItems L tl
    match t with
    | .dict es =>
      let re := processEntries L es
      (.cons (.dict re.1) r.1, re.2 ++ r.2)
    | .leaf sv => (.cons (.leaf sv) r.1, r.2)
    | .seq xs => (.cons (.seq xs) r.1, r.2)

end

mutual

/-- No key of this tree uses the transform-reference syntax. -/
def treeNoTag : PyTree → Bool
  | .leaf _ => true
  | .seq xs => treesNoTag xs
  | .dict es => entriesNoTag es

/-- No key inside any item uses the transform-reference syntax. -/
def treesNoTag : PyTrees → Bool
  | .nil => true
  | .cons t tl => treeNoTag t && treesNoTag tl

/-- No key of this entry list (or below it) uses the syntax. -/
def entriesNoTag : PyEntries → Bool
  | .nil => true
  | .cons k v tl => !hasExtSyntax k && treeNoTag v && entriesNoTag tl

end

/-! Admission gate: the `asyncio.Semaphore` wrapping each request
(core.py lines 186-194 and 232-250).  `run_test_with_semaphore` holds the
semaphore for the whole of `run_test`, so a request is in flight only
while its task holds one of the `concurrent` permits.  The semaphore's
counting semantics are the standard asyncio ones: acquire succeeds only
below the bound, release returns the permit. -/

/-- State of a batch run: cases not yet admitted, cases holding the gate
(request in flight), cases finished. -/
structure PoolState where
  pending : Nat
  inFlight : Nat
  done : Nat
  deriving DecidableEq, Repr

/-- Transitions of the gated batch with bound `k`: admit a pending case
when a permit is free, or finish an in-flight case. -/
inductive PoolStep (k : Nat) : PoolState → PoolState → Prop where
  | acquire (s : PoolState) (hp : 0 < s.pending) (hk : s.inFlight < k) :
      PoolStep k s ⟨s.pending - 1, s.inFlight + 1, s.done⟩
  | release (s : PoolState) (hf : 0 < s.inFlight) :
      PoolStep k s ⟨s.pending, s.inFlight - 1, s.done + 1⟩

/-- States reachable from the start of a batch of `n` submitted cases. -/
inductive PoolReach (k n : Nat) : PoolState → Prop where
  | init : PoolReach k n ⟨n, 0, 0⟩
  | step {s t : PoolState} : PoolReach k n s → PoolStep k s t → PoolReach k n t

/-! Concrete fixtures for the stop-on-fail counterexample. -/

/-- A failing result as delivered for the first submitted case. -/
def ceFail : TestResult := { name := "a", url := "u", passed := false }

/-- A passing result as delivered for the second submitted case. -/
def cePass : TestResult := { name := "b", url := "u", passed := true }

/-- Two submitted cases. -/
def ceTests : List TestSpec := [{ relativeUrl := "/a" }, { relativeUrl := "/b" }]

/-- Per-case outcomes: the first case fails, the second passes. -/
def ceExec : TestSpec → GatherItem :=
  fun t => if t.relativeUrl == "/b" then .ok cePass else .ok ceFail

/-! Helper lemmas. -/

theorem strStartsWith_iff (s p : String) :
    strStartsWith s p = true ↔ p.data <+: s.data := by
  simp [strStartsWith]

theorem strContains_iff (s p : String) :
    strContains s p = true ↔ p.data <:+: s.data := by
  simp [strContains]

theorem attemptLoop_timeout (cfg : GlobalConfig) (reSearch : String → String → Bool)
    (expected : ExpectedSet) (testName url : String) (transport : Nat → AttemptOutcome)
    (hT : ∀ i, transport i = .timeout) :
    ∀ i, i < cfg.retries.toNat →
      attemptLoop cfg reSearch expected testName url transport i =
        (.raised .timeoutErr, cfg.retries.toNat - i, cfg.retries.toNat - i - 1) := by
  have main : ∀ n i, cfg.retries.toNat - i ≤ n → i < cfg.retries.toNat →
      attemptLoop cfg reSearch expected testName url transport i =
        (.raised .timeoutErr, cfg.retries.toNat - i, cfg.retries.toNat - i - 1) := by
    intro n
    induction n with
    | zero => intro i hle hi; omega
    | succ n ih =>
      intro i hle hi
      unfold attemptLoop
      rw [dif_pos hi, hT i]
      by_cases hlast : i = cfg.retries.toNat - 1
      · simp only [hlast, beq_self_eq_true, if_true, Prod.mk.injEq]
        refine ⟨trivial, by omega, by omega⟩
      · have hrec := ih (i + 1) (by omega) (by omega)
        simp only [beq_iff_eq, hlast, if_false, hrec, Prod.mk.injEq]
        refine ⟨trivial, by omega, by omega⟩
  exact fun i hi => main cfg.retries.toNat i (by omega) hi

theorem processResults_sum (stop : Bool) : ∀ (items : List GatherItem) (p f : Nat),
    (processResults stop items p f).1 + (processResults stop items p f).2 =
      p + f + (if stop then countedLen items else items.length) := by
  intro items
  induction items with
  | nil => intro p f; simp [processResults, countedLen]
  | cons it rest ih =>
    intro p f
    cases it with
    | exn m =>
      have := ih p (f + 1)
      simp only [processResults, countedLen, List.length_cons] at this ⊢
      cases stop <;> simp_all <;> omega
    | ok r =>
      by_cases hp : r.passed
      · have := ih (p + 1) f
        simp only [processResults, countedLen, hp, if_true, List.length_cons] at this ⊢
        cases stop <;> simp_all <;> omega
      · have := ih p (f + 1)
        simp only [processResults, countedLen, hp, if_false, List.length_cons] at this ⊢
        cases stop <;> simp_all <;> omega

/-! Claim theorems. -/

/-- C1: for every test case against an endpoint whose attempts all time
out, with configured `retries = R ≥ 1`, `run_test` performs exactly R
request attempts with a backoff pause between consecutive attempts (R - 1
pauses of the fixed 1-second length), and the final attempt's timeout is
re-raised rather than retried, producing a failed `TestResult` whose
`error` is set (to `str(asyncio.TimeoutError())`, the empty string) and
whose `actual` is the empty dict. -/
theorem C1_retry_exhaustion (cfg : GlobalConfig) (reSearch : String → String → Bool)
    (ujoin : String → String → String) (t : TestSpec) (transport : Nat → AttemptOutcome)
    (hT : ∀ i, transport i = .timeout) (hR : 1 ≤ cfg.retries) :
    ∃ res : TestResult,
      run_test cfg reSearch ujoin t transport =
        (some res, cfg.retries.toNat, cfg.retries.toNat - 1) ∧
      res.passed = false ∧ res.error = some "" ∧ res.actual = none := by
  have hpos : 0 < cfg.retries.toNat := by omega
  have hl := attemptLoop_timeout cfg reSearch t.expected
    (resolvedName t (resolvedUrl cfg ujoin t)) (resolvedUrl cfg ujoin t)
    transport hT 0 hpos
  refine ⟨{ name := resolvedName t (resolvedUrl cfg ujoin t),
            url := resolvedUrl cfg ujoin t, passed := false,
            expected := t.expected, actual := none, error := some "" },
         ?_, rfl, rfl, rfl⟩
  simp only [run_test, hl, Nat.sub_zero, PyExc.toMessage]

/-- C1 witness: three retries against an always-timing-out transport give
exactly 3 attempts, 2 backoff pauses, and a failed result. -/
theorem C1_retry_exhaustion_witness :
    ∃ res : TestResult,
      run_test { retries := 3 } (fun _ _ => false) (fun a b => a ++ b) {}
          (fun _ => .timeout) = (some res, 3, 2) ∧
      res.passed = false ∧ res.error = some "" ∧ res.actual = none := by
  simpa using C1_retry_exhaustion { retries := 3 } (fun _ _ => false) (fun a b => a ++ b) {}
    (fun _ => .timeout) (fun _ => rfl) (by decide)

/-- C2 counterexample: with `stop-on-fail` set and two submitted cases of
which the first fails and the second passes, the coordinator still
executes (gathers a result for) both cases — `asyncio.gather` awaits every
task before the stop flag is ever consulted, so no not-yet-started work is
refused admission — yet the aggregated counts are 0 passed / 1 failed: the
second case's completed passing result is not reflected, contradicting the
claim that only intentionally excluded not-yet-started cases may be
missing from the counts. -/
theorem C2_stop_counterexample :
    (run_tests { stopOnFail := true } ceTests ceExec).results.length = 2 ∧
    (run_tests { stopOnFail := true } ceTests ceExec).passed = 0 ∧
    (run_tests { stopOnFail := true } ceTests ceExec).failed = 1 := by
  decide

/-- C2 (amended): every submitted case is executed and appears in the
gathered results whether or not `stop-on-fail` is set (the flag stops only
the result-counting loop, not admission of work); without the flag the
aggregated counts reflect every submitted case, and with it they reflect
exactly the prefix of results up to and including the first failing
(non-exception) result. -/
theorem C2_aggregation_amended (cfg : GlobalConfig) (tests : List TestSpec)
    (execOne : TestSpec → GatherItem) :
    (run_tests cfg tests execOne).results.length = tests.length ∧
    (run_tests cfg tests execOne).passed + (run_tests cfg tests execOne).failed =
      (if cfg.stopOnFail then countedLen (run_tests cfg tests execOne).results
       else tests.length) := by
  constructor
  · simp [run_tests]
  · have h := processResults_sum cfg.stopOnFail (tests.map execOne) 0 0
    simp only [run_tests, Nat.zero_add, List.length_map] at h ⊢
    simpa using h

/-- C9: in a batch run gated by the counting admission semaphore of size
`concurrent`, every reachable state of the pool has at most `concurrent`
requests in flight (each request is issued only while its task holds a
permit). -/
theorem C9_inflight_bounded (cfg : GlobalConfig) (n : Nat) (s : PoolState)
    (h : PoolReach cfg.concurrent n s) : s.inFlight ≤ cfg.concurrent := by
  induction h with
  | init => exact Nat.zero_le _
  | step hr hstep ih =>
    cases hstep with
    | acquire hp hk => exact hk
    | release hf => exact Nat.le_trans (Nat.sub_le _ _) ih

/-- C9 witness: with 50 submitted cases and a gate of 5, the state after
one admission has 1 ≤ 5 requests in flight. -/
theorem C9_inflight_bounded_witness :
    (⟨49, 1, 0⟩ : PoolState).inFlight ≤ ({ concurrent := 5 } : GlobalConfig).concurrent :=
  C9_inflight_bounded { concurrent := 5 } 50 ⟨49, 1, 0⟩
    (PoolReach.step PoolReach.init
      (PoolStep.acquire ⟨50, 0, 0⟩ (by decide) (by decide)))

/-- C10: when the global `retries` setting is 0 or negative the
`range(retries)` loop body never runs, so `run_test` performs no request
attempt and falls off the end of the `try` block, returning Python `None`
instead of a `TestResult`. -/
theorem C10_zero_retries_returns_none (cfg : GlobalConfig)
    (reSearch : String → String → Bool) (ujoin : String → String → String)
    (t : TestSpec) (transport : Nat → AttemptOutcome) (h : cfg.retries ≤ 0) :
    run_test cfg reSearch ujoin t transport = (none, 0, 0) := by
  have hz : cfg.retries.toNat = 0 := Int.toNat_of_nonpos h
  have ha : attemptLoop cfg reSearch t.expected
      (resolvedName t (resolvedUrl cfg ujoin t)) (resolvedUrl cfg ujoin t)
      transport 0 = (.fellThrough, 0, 0) := by
    unfold attemptLoop
    rw [dif_neg (by omega)]
  simp only [run_test, ha]

/-- C10 witness: `retries = 0` yields no attempts and no result. -/
theorem C10_zero_retries_returns_none_witness :
    run_test { retries := 0 } (fun _ _ => false) (fun a b => a ++ b) {}
      (fun _ => .timeout) = (none, 0, 0) :=
  C10_zero_retries_returns_none { retries := 0 } (fun _ _ => false) (fun a b => a ++ b) {}
    (fun _ => .timeout) (by decide)

/-- C3: for an expectation set carrying a `status` field, the status rule
passes iff the actual status equals a scalar expectation (Python `==`, so
a non-integer scalar never matches an integer status), and a
`{type: multiple, values: [...]}` expectation passes iff the actual status
is a member of the values list. -/
theorem C3_status_validation (cfg : GlobalConfig) (reSearch : String → String → Bool)
    (a : ActualResp) :
    (∀ pv : PyVal,
      validate_response cfg reSearch { status := some (.scalar pv) } a = true ↔
        PyVal.vInt a.status = pv) ∧
    (∀ vals : List PyVal,
      validate_response cfg reSearch { status := some (.multiple vals) } a = true ↔
        PyVal.vInt a.status ∈ vals) := by
  constructor
  · intro pv
    simp [validate_response, statusRule, pyEq_eq_true_iff]
  · intro vals
    simp only [validate_response, statusRule, Bool.and_true, List.any_eq_true,
      pyEq_eq_true_iff]
    exact ⟨fun ⟨x, hx, he⟩ => he ▸ hx, fun h => ⟨_, h, rfl⟩⟩

/-- C3 witness: multi-value status `{200, 404}` accepts an actual 404. -/
theorem C3_status_validation_witness :
    validate_response {} (fun _ _ => false)
      { status := some (.multiple [.vInt 200, .vInt 404]) }
      { status := 404, body := "", headers := [] } = true :=
  ((C3_status_validation {} (fun _ _ => false)
      { status := 404, body := "", headers := [] }).2
    [.vInt 200, .vInt 404]).mpr (by decide)

/-- C4: for an expectation set carrying a `content-type` field, the actual
content-type is looked up case-insensitively by header name (any header
whose lowercased name is `content-type` matches; absence yields the empty
string); a scalar expectation passes iff the expected string is a
character prefix of the actual value (case-sensitive on the value, not
equality), and a multi-value expectation passes iff some listed value is
such a prefix. -/
theorem C4_content_type_validation (cfg : GlobalConfig)
    (reSearch : String → String → Bool) (st : Int) (body : String)
    (headers : List (String × String)) :
    (∀ (k v : String) (rest : List (String × String)),
        pyLower k = "content-type" → findContentType ((k, v) :: rest) = v) ∧
    ((∀ kv ∈ headers, pyLower kv.1 ≠ "content-type") →
        findContentType headers = "") ∧
    (∀ s : String,
        validate_response cfg reSearch { contentType := some (.scalar s) }
          ⟨st, body, headers⟩ = true ↔
          s.data <+: (findContentType headers).data) ∧
    (∀ vals : List String,
        validate_response cfg reSearch { contentType := some (.multiple vals) }
          ⟨st, body, headers⟩ = true ↔
          ∃ v ∈ vals, v.data <+: (findContentType headers).data) := by
  refine ⟨?_, ?_, ?_, ?_⟩
  · intro k v rest hk
    simp [findContentType, hk]
  · intro habs
    induction headers with
    | nil => rfl
    | cons kv rest ih =>
      have hk := habs kv (by simp)
      cases kv with
      | mk k v =>
        simp only [findContentType]
        rw [if_neg (by simpa using hk)]
        exact ih (fun kv hkv => habs kv (by simp [hkv]))
  · intro s
    simp [validate_response, contentTypeRule, strStartsWith]
  · intro vals
    simp [validate_response, contentTypeRule, strStartsWith, List.any_eq_true]

/-- C4 witness: a header list without a content-type yields the empty
string, and a mixed-case `Content-Type` header prefix-matches the scalar
expectation `text/html`. -/
theorem C4_content_type_validation_witness :
    findContentType [("X-Other", "y")] = "" ∧
    validate_response {} (fun _ _ => false)
      { contentType := some (.scalar "text/html") }
      ⟨200, "", [("Content-Type", "text/html; charset=utf-8")]⟩ = true := by
  constructor
  · exact (C4_content_type_validation {} (fun _ _ => false) 0 "" [("X-Other", "y")]).2.1
      (by decide)
  · exact ((C4_content_type_validation {} (fun _ _ => false) 200 ""
      [("Content-Type", "text/html; charset=utf-8")]).2.2.1 "text/html").mpr (by decide)

/-- C5: for an expectation set carrying a `response` field, the body is
stripped of leading/trailing whitespace when the global `trim` setting is
on (and `trim` defaults to on), compared as-is when off; then type `exact`
passes iff the (possibly trimmed) body equals `value`, type `regex` passes
iff the pattern search succeeds anywhere in the body, type `contains`
passes iff `value` occurs as a substring, and type `empty` passes iff the
body equals the empty string. -/
theorem C5_body_validation (cfg : GlobalConfig) (reSearch : String → String → Bool)
    (st : Int) (rawBody : String) (headers : List (String × String)) :
    (({} : GlobalConfig).trim = true) ∧
    (∀ v : String,
        validate_response cfg reSearch
          { response := some { rtype := .exact, value := v } }
          ⟨st, rawBody, headers⟩ = true ↔
          (if cfg.trim then pyStrip rawBody else rawBody) = v) ∧
    (∀ pat : String,
        validate_response cfg reSearch
          { response := some { rtype := .regex, value := pat } }
          ⟨st, rawBody, headers⟩ =
          reSearch pat (if cfg.trim then pyStrip rawBody else rawBody)) ∧
    (∀ v : String,
        validate_response cfg reSearch
          { response := some { rtype := .containsT, value := v } }
          ⟨st, rawBody, headers⟩ = true ↔
          v.data <:+: (if cfg.trim then pyStrip rawBody else rawBody).data) ∧
    (∀ v : String,
        validate_response cfg reSearch
          { response := some { rtype := .emptyBody, value := v } }
          ⟨st, rawBody, headers⟩ = true ↔
          (if cfg.trim then pyStrip rawBody else rawBody) = "") := by
  refine ⟨rfl, ?_, ?_, ?_, ?_⟩
  · intro v
    simp [validate_response, responseRule]
  · intro pat
    simp [validate_response, responseRule]
  · intro v
    simp [validate_response, responseRule, strContains]
  · intro v
    simp [validate_response, responseRule]

/-- C5 witness: `contains "ok"` accepts the trimmed body `status: ok`, and
`empty` accepts an all-whitespace body under the default trimming. -/
theorem C5_body_validation_witness :
    validate_response { trim := true } (fun _ _ => false)
      { response := some { rtype := .containsT, value := "ok" } }
      ⟨200, "  status: ok  ", []⟩ = true ∧
    validate_response { trim := true } (fun _ _ => false)
      { response := some { rtype := .emptyBody, value := "" } }
      ⟨200, "   ", []⟩ = true := by
  constructor
  · exact ((C5_body_validation { trim := true } (fun _ _ => false) 200
      "  status: ok  " []).2.2.2.1 "ok").mpr (by decide)
  · exact ((C5_body_validation { trim := true } (fun _ _ => false) 200
      "   " []).2.2.2.2 "").mpr (by decide)

mutual

theorem processEntriesGo_noTag (L : ExtensionLoader) (ctx : PyEntries) :
    ∀ es : PyEntries, entriesNoTag es = true → processEntriesGo L ctx es = (es, [])
  | .nil, _ => by simp [processEntriesGo.eq_def]
  | .cons k v tl, h => by
    simp only [entriesNoTag, Bool.and_eq_true, Bool.not_eq_true'] at h
    obtain ⟨⟨hk, hv⟩, htl⟩ := h
    have hrest := processEntriesGo_noTag L ctx tl htl
    cases v with
    | leaf sv =>
      rw [processEntriesGo.eq_4]
      by_cases hu : isInternalKey k = true
      · simp [hu, hrest]
      · rw [if_neg (by simpa using hu)]
        simp [hrest, process_block_with_extensions, hk]
    | dict es =>
      have hes := processEntries_noTag L es (by simpa [treeNoTag] using hv)
      rw [processEntriesGo.eq_2]
      by_cases hu : isInternalKey k = true
      · simp [hu, hrest]
      · rw [if_neg (by simpa using hu)]
        simp [hrest, hes]
    | seq xs =>
      have hxs := processItems_noTag L xs (by simpa [treeNoTag] using hv)
      rw [processEntriesGo.eq_3]
      by_cases hu : isInternalKey k = true
      · simp [hu, hrest]
      · rw [if_neg (by simpa using hu)]
        simp [hrest, hxs]

theorem processEntries_noTag (L : ExtensionLoader) :
    ∀ es : PyEntries, entriesNoTag es = true → processEntries L es = (es, [])
  | es, h => by rw [processEntries]; exact processEntriesGo_noTag L es es h

theorem processItems_noTag (L : ExtensionLoader) :
    ∀ xs : PyTrees, treesNoTag xs = true → processItems L xs = (xs, [])
  | .nil, _ => by simp [processItems.eq_def]
  | .cons t tl, h => by
    simp only [treesNoTag, Bool.and_eq_true] at h
    have hrest := processItems_noTag L tl h.2
    cases t with
    | leaf sv => rw [processItems.eq_3, hrest]
    | dict es =>
      have hes := processEntries_noTag L es (by simpa [treeNoTag] using h.1)
      rw [processItems.eq_2, hrest, hes]
      rfl
    | seq xs => rw [processItems.eq_4, hrest]

end

/-- C6: a configuration document none of whose keys uses the
transform-reference syntax `base<transform>` passes through the Block
Processor unchanged (the recursion over nested maps and sequences alters
no key and no value), and no diagnostic is emitted. -/
theorem C6_no_transform_keys_identity (L : ExtensionLoader) (es : PyEntries)
    (h : entriesNoTag es = true) : processEntries L es = (es, []) :=
  processEntries_noTag L es h

/-- Concrete untagged document with a nested map and a sequence. -/
def egDoc : PyEntries :=
  .cons "name" (.leaf (.vStr "smoke"))
    (.cons "expected" (.dict (.cons "status" (.leaf (.vInt 200)) .nil))
      (.cons "tags" (.seq (.cons (.leaf (.vStr "a"))
        (.cons (.dict (.cons "k" (.leaf (.vInt 1)) .nil)) .nil))) .nil))

/-- C6 witness: the concrete untagged document is returned unchanged. -/
theorem C6_no_transform_keys_identity_witness :
    processEntries {} egDoc = (egDoc, []) :=
  C6_no_transform_keys_identity {} egDoc (by decide)

/-- C7: a transform name registered in both namespaces resolves to the
user-supplied implementation whenever the precedence is not `core` (the
user-favoring default `non-core`) and to the built-in implementation under
precedence `core`; a name absent from both namespaces resolves to `none`.
Resolution returns an `Option Ext`, hence never more than one transform. -/
theorem C7_resolve_precedence (L : ExtensionLoader) (extensionName : String) :
    (∀ u c : Ext,
      L.user_extensions.lookup extensionName = some u →
      L.core_extensions.lookup extensionName = some c →
      (L.precedence = "core" → resolve_extension L extensionName = some c) ∧
      (L.precedence ≠ "core" → resolve_extension L extensionName = some u)) ∧
    (L.user_extensions.lookup extensionName = none →
     L.core_extensions.lookup extensionName = none →
     resolve_extension L extensionName = none) := by
  constructor
  · intro u c hu hc
    constructor
    · intro hp
      simp [resolve_extension, hp, hc]
    · intro hp
      rw [resolve_extension, if_neg (by simpa using hp), hu]
  · intro hu hc
    unfold resolve_extension
    by_cases hp : L.precedence == "core"
    · simp [hp, hu, hc]
    · simp [hp, hu, hc]

/-- A built-in transform used in the precedence witness. -/
def coreDup : Ext := ⟨fun _ v _ => .ok v⟩

/-- A user transform registered under the same name. -/
def userDup : Ext := ⟨fun _ _ _ => .ok (.vStr "user")⟩

/-- Loader with the duplicate name under the default precedence. -/
def loaderFavorUser : ExtensionLoader :=
  { core_extensions := [("dup", coreDup)], user_extensions := [("dup", userDup)],
    precedence := "non-core" }

/-- Loader with the duplicate name under precedence `core`. -/
def loaderFavorCore : ExtensionLoader :=
  { core_extensions := [("dup", coreDup)], user_extensions := [("dup", userDup)],
    precedence := "core" }

/-- C7 witness: the duplicate name resolves to the user transform under
`non-core`, to the built-in under `core`, and an unregistered name
resolves to none. -/
theorem C7_resolve_precedence_witness :
    resolve_extension loaderFavorUser "dup" = some userDup ∧
    resolve_extension loaderFavorCore "dup" = some coreDup ∧
    resolve_extension loaderFavorUser "absent" = none :=
  ⟨((C7_resolve_precedence loaderFavorUser "dup").1 userDup coreDup rfl rfl).2
      (by decide),
   ((C7_resolve_precedence loaderFavorCore "dup").1 userDup coreDup rfl rfl).1 rfl,
   (C7_resolve_precedence loaderFavorUser "absent").2 rfl rfl⟩

/-- C8: a tagged block whose resolved transform raises during `process` is
substituted with its pre-transform value under the base key, a diagnostic
is emitted, and the rest of the document is processed normally — the
failure is contained to the one block and is not fatal to the document. -/
theorem C8_transform_error_contained (L : ExtensionLoader) (k : String)
    (v : PyVal) (rest : PyEntries) (e : Ext) (msg : String)
    (hu : isInternalKey k = false)
    (hs : hasExtSyntax k = true)
    (hr : resolve_extension L (tagExtName k) = some e)
    (he : e.procFn (tagBase k) v (.cons k (.leaf v) rest) = .error msg) :
    processEntries L (.cons k (.leaf v) rest) =
      (.cons (tagBase k) (.leaf v)
        (processEntriesGo L (.cons k (.leaf v) rest) rest).1,
       ("❌ Extension " ++ tagExtName k ++ " failed: " ++ msg) ::
         (processEntriesGo L (.cons k (.leaf v) rest) rest).2) := by
  rw [processEntries, processEntriesGo.eq_4]
  rw [if_neg (by simp [hu])]
  simp only [process_block_with_extensions, hs, if_true, hr, he,
    List.singleton_append, List.cons_append, List.nil_append]

/-- An always-raising user transform. -/
def boomExt : Ext := ⟨fun _ _ _ => .error "boom"⟩

/-- Loader resolving `up` to the raising transform. -/
def loaderBoom : ExtensionLoader := { user_extensions := [("up", boomExt)] }

/-- A document whose first entry is tagged `status<up>` and whose second
entry is untagged. -/
def egTagged : PyEntries :=
  .cons "status<up>" (.leaf (.vInt 1)) (.cons "x" (.leaf (.vStr "y")) .nil)

/-- C8 witness: processing the tagged document keeps the pre-transform
value under the base key, emits the failure diagnostic, and still
processes the remaining entry. -/
theorem C8_transform_error_contained_witness :
    processEntries loaderBoom egTagged =
      (.cons (tagBase "status<up>") (.leaf (.vInt 1))
        (processEntriesGo loaderBoom egTagged
          (.cons "x" (.leaf (.vStr "y")) .nil)).1,
       ("❌ Extension " ++ tagExtName "status<up>" ++ " failed: " ++ "boom") ::
         (processEntriesGo loaderBoom egTagged
           (.cons "x" (.leaf (.vStr "y")) .nil)).2) :=
  C8_transform_error_contained loaderBoom "status<up>" (.vInt 1)
    (.cons "x" (.leaf (.vStr "y")) .nil) boomExt "boom"
    (by decide) (by decide) rfl rfl

end ZysysApiTest
